import Mathlib

/-!
Verification of the alpha-LSB text-effect color encoding implemented in
`src/components/TextEffectGenerator.tsx`.

The TypeScript code operates on JavaScript numbers, but every bitwise
operation there first converts its operand to a 32-bit two's-complement
integer.  All the values involved are small, so we embed:

* color channel bytes as `Nat` (the claims restrict them to `0..255`);
* the user-supplied parameters (`data`, `effectId`, `speed`, `param`) as
  `Int`, since they may be arbitrary integers;
* JS `x & m` for a low-bit mask `m = 2^k - 1` and an integer `x` as the
  Euclidean remainder `x % 2^k` (this is exactly what two's-complement
  AND with a low mask computes, for negative `x` as well);
* JS `base & ~LOW_MASK` on a nonnegative `base` as `Nat` AND with the
  unsigned 32-bit pattern of `~LOW_MASK`, namely `2^32 - 1 - LOW_MASK`;
* JS strings as Lean `String`; `n.toString(16)` produces the lowercase
  hex digits `Nat.toDigits 16 n`, `padStart(2, c)` pads on the left, and
  `toUpperCase` maps `Char.toUpper` over every character.
-/

-- Alpha LSB encoding constants (matching AlphaLsbEncoding.java)

def LSB_BITS : Nat := 4

/-- `LOW_MASK = (1 << LSB_BITS) - 1 = 0x0F`. -/
def LOW_MASK : Nat := (1 <<< LSB_BITS) - 1

/-- `DATA_MASK = (1 << (LSB_BITS - 1)) - 1 = 0x07`. -/
def DATA_MASK : Nat := (1 <<< (LSB_BITS - 1)) - 1

def DATA_MIN : Nat := 1

def DATA_GAP : Nat := 5

/-- `encodeNibble(data)`: JS `(data & DATA_MASK) + DATA_MIN`, then skip the
gap value.  `data & DATA_MASK` masks the low three bits of the
two's-complement representation, i.e. the Euclidean remainder mod 8. -/
def encodeNibble (data : Int) : Nat :=
  let encoded := (data % ((DATA_MASK : Int) + 1)).toNat + DATA_MIN
  if DATA_GAP ≥ 0 ∧ encoded ≥ DATA_GAP then encoded + 1 else encoded

/-- `encodeChannel(base, data)`: JS `(base & ~LOW_MASK) | encodeNibble(data)`.
`~LOW_MASK` as an unsigned 32-bit pattern is `2^32 - 1 - LOW_MASK`. -/
def encodeChannel (base : Nat) (data : Int) : Nat :=
  (base &&& (2 ^ 32 - 1 - LOW_MASK)) ||| encodeNibble data

/-- `avoidAnimationSentinels(red)`: avoid R=254 and the shadow range 62-64,
which are reserved for animated glyphs. -/
def avoidAnimationSentinels (red : Nat) : Nat :=
  if red = 254 then red - 16
  else if 62 ≤ red ∧ red ≤ 64 then red + 16
  else red

/-- `clamp(value, min, max) = Math.max(min, Math.min(max, value))`. -/
def clamp (value mn mx : Int) : Int :=
  max mn (min mx value)

/-- An RGB triplet; each channel is a byte in the claims' scope. -/
structure Color where
  r : Nat
  g : Nat
  b : Nat
deriving DecidableEq, Repr

/-- The result record of `encodeTextEffect`. -/
structure EncodedColor where
  r : Nat
  g : Nat
  b : Nat
  hex : String
deriving DecidableEq, Repr

/-- JS `String.prototype.padStart(n, c)` on the character list of a string. -/
def padStart (l : List Char) (n : Nat) (c : Char) : List Char :=
  List.replicate (n - l.length) c ++ l

/-- `encodeTextEffect(baseColor, effectId, speed, param)` from
`TextEffectGenerator.tsx`.  `effectId & DATA_MASK` is the Euclidean
remainder mod 8; the hex string is built from lowercase hex digits,
each channel left-padded to two digits, and upper-cased as a whole. -/
def encodeTextEffect (baseColor : Color) (effectId speed param : Int) :
    EncodedColor :=
  let effectClamped : Int := effectId % ((DATA_MASK : Int) + 1)
  let speedClamped : Int := clamp speed 1 (DATA_MASK : Int)
  let paramClamped : Int := clamp param 0 (DATA_MASK : Int)
  let rEnc := avoidAnimationSentinels (encodeChannel baseColor.r effectClamped)
  let gEnc := encodeChannel baseColor.g speedClamped
  let bEnc := encodeChannel baseColor.b paramClamped
  let hexChars :=
    '#' :: (padStart (Nat.toDigits 16 rEnc) 2 '0' ++
            padStart (Nat.toDigits 16 gEnc) 2 '0' ++
            padStart (Nat.toDigits 16 bEnc) 2 '0')
  { r := rEnc, g := gEnc, b := bEnc,
    hex := String.mk (hexChars.map Char.toUpper) }

/-- A hex digit in the sense of the regex character class used by
`hexToRgb` with the `i` flag: `[a-f\d]`, case-insensitively. -/
def isHexDigit (c : Char) : Bool :=
  (('0' ≤ c) && (c ≤ '9')) || (('a' ≤ c) && (c ≤ 'f')) ||
    (('A' ≤ c) && (c ≤ 'F'))

/-- Numeric value of a hex digit, as `parseInt(·, 16)` assigns it. -/
def hexVal (c : Char) : Nat :=
  if ('0' ≤ c) && (c ≤ '9') then c.toNat - '0'.toNat
  else if ('a' ≤ c) && (c ≤ 'f') then c.toNat - 'a'.toNat + 10
  else if ('A' ≤ c) && (c ≤ 'F') then c.toNat - 'A'.toNat + 10
  else 0

/-- The `#?` part of the regex `^#?([a-f\d]{2})([a-f\d]{2})([a-f\d]{2})$/i`:
an optional leading hash.  Since a hash is not a hex digit, the regex
matches exactly when, after removing at most one leading hash, what is
left is six hex digits. -/
def dropHash (cs : List Char) : List Char :=
  match cs with
  | c :: rest => if c = '#' then rest else c :: rest
  | [] => []

/-- The body of `hexToRgb` after the optional hash is removed: the regex
match succeeds iff there remain exactly six case-insensitive hex digits,
and each two-digit group is converted by `parseInt(·, 16)`. -/
def hexToRgbList (cs : List Char) : Color :=
  match cs with
  | [c1, c2, c3, c4, c5, c6] =>
    if isHexDigit c1 && isHexDigit c2 && isHexDigit c3 && isHexDigit c4 &&
        isHexDigit c5 && isHexDigit c6 then
      { r := 16 * hexVal c1 + hexVal c2
        g := 16 * hexVal c3 + hexVal c4
        b := 16 * hexVal c5 + hexVal c6 }
    else { r := 255, g := 255, b := 255 }
  | _ => { r := 255, g := 255, b := 255 }

/-- `hexToRgb(hex)`: parse `#RRGGBB` (case-insensitive, optional leading
hash); on a failed match return the default color `(255,255,255)`. -/
def hexToRgb (hex : String) : Color :=
  hexToRgbList (dropHash hex.data)

/-- The body of `encodeNibble` once the masking to the low three bits has
been performed; used to transfer facts about `encodeNibble` to a bounded
(hence decidable) domain. -/
def nibAux (m : Nat) : Nat :=
  let encoded := m + DATA_MIN
  if DATA_GAP ≥ 0 ∧ encoded ≥ DATA_GAP then encoded + 1 else encoded

theorem encodeNibble_eq_nibAux (d : Int) :
    encodeNibble d = nibAux (d % ((DATA_MASK : Int) + 1)).toNat := rfl

theorem mask_toNat_lt (d : Int) : (d % ((DATA_MASK : Int) + 1)).toNat < 8 := by
  have hm : (DATA_MASK : Int) + 1 = 8 := by decide
  rw [hm]
  have h0 : 0 ≤ d % 8 := Int.emod_nonneg d (by norm_num)
  have h1 : d % 8 < 8 := Int.emod_lt_of_pos d (by norm_num)
  omega

theorem encodeNibble_mem (d : Int) :
    encodeNibble d ∈ ([1, 2, 3, 4, 6, 7, 8, 9] : List Nat) := by
  rw [encodeNibble_eq_nibAux]
  have hball : ∀ m < 8, nibAux m ∈ ([1, 2, 3, 4, 6, 7, 8, 9] : List Nat) := by
    decide
  exact hball _ (mask_toNat_lt d)

theorem encodeNibble_facts (d : Int) :
    encodeNibble d < 10 ∧ encodeNibble d ≠ 0 ∧ encodeNibble d ≠ 5 := by
  have h := encodeNibble_mem d
  have hball : ∀ n ∈ ([1, 2, 3, 4, 6, 7, 8, 9] : List Nat),
      n < 10 ∧ n ≠ 0 ∧ n ≠ 5 := by decide
  exact hball _ h

set_option maxRecDepth 100000

theorem channelTable : ∀ b < 256, ∀ n < 10, n ≠ 0 →
    (((b &&& 4294967280) ||| n) &&& 240 = b &&& 240) ∧
    ((b &&& 4294967280) ||| n ≤ 255) ∧
    ((b &&& 4294967280) ||| n ≠ 254) ∧
    ¬(62 ≤ ((b &&& 4294967280) ||| n) ∧ ((b &&& 4294967280) ||| n) ≤ 64) := by
  decide

theorem encodeChannel_eq (base : Nat) (data : Int) :
    encodeChannel base data = (base &&& 4294967280) ||| encodeNibble data := rfl

theorem encodeChannel_facts (base : Nat) (hb : base < 256) (data : Int) :
    (encodeChannel base data &&& 240 = base &&& 240) ∧
    (encodeChannel base data ≤ 255) ∧
    (encodeChannel base data ≠ 254) ∧
    ¬(62 ≤ encodeChannel base data ∧ encodeChannel base data ≤ 64) := by
  rw [encodeChannel_eq]
  obtain ⟨h10, h0, _⟩ := encodeNibble_facts data
  exact channelTable base hb (encodeNibble data) h10 h0

theorem avoid_id_of_not_sentinel (v : Nat) (h254 : v ≠ 254)
    (hsh : ¬(62 ≤ v ∧ v ≤ 64)) : avoidAnimationSentinels v = v := by
  unfold avoidAnimationSentinels
  rw [if_neg h254, if_neg hsh]

theorem avoid_encodeChannel (base : Nat) (hb : base < 256) (data : Int) :
    avoidAnimationSentinels (encodeChannel base data) =
      encodeChannel base data := by
  obtain ⟨_, _, h254, hsh⟩ := encodeChannel_facts base hb data
  exact avoid_id_of_not_sentinel _ h254 hsh

theorem encodeNibble_small (d : Int) (h0 : 0 ≤ d) (h7 : d ≤ 7) :
    encodeNibble d = nibAux d.toNat := by
  rw [encodeNibble_eq_nibAux]
  have hm : (DATA_MASK : Int) + 1 = 8 := by decide
  rw [hm, Int.emod_eq_of_lt h0 (by omega)]

theorem red_component_eq (c : Color) (e s p : Int) :
    (encodeTextEffect c e s p).r =
      avoidAnimationSentinels
        (encodeChannel c.r (e % ((DATA_MASK : Int) + 1))) := rfl

/-- C1: for data in `0..7`, `encodeNibble` is injective, its image is
exactly the eight values `{1,2,3,4,6,7,8,9}`, and it never returns `0`
or `5`. -/
theorem c1_encodeNibble_bijective :
    (∀ d₁ d₂ : Int, 0 ≤ d₁ → d₁ ≤ 7 → 0 ≤ d₂ → d₂ ≤ 7 →
        encodeNibble d₁ = encodeNibble d₂ → d₁ = d₂) ∧
    (∀ d : Int, 0 ≤ d → d ≤ 7 →
        encodeNibble d ∈ ([1, 2, 3, 4, 6, 7, 8, 9] : List Nat)) ∧
    (∀ v : Nat, v ∈ ([1, 2, 3, 4, 6, 7, 8, 9] : List Nat) →
        ∃ d : Int, 0 ≤ d ∧ d ≤ 7 ∧ encodeNibble d = v) ∧
    (∀ d : Int, 0 ≤ d → d ≤ 7 →
        encodeNibble d ≠ 0 ∧ encodeNibble d ≠ 5) := by
  refine ⟨?_, ?_, ?_, ?_⟩
  · intro d₁ d₂ h₁0 h₁7 h₂0 h₂7 heq
    rw [encodeNibble_small d₁ h₁0 h₁7, encodeNibble_small d₂ h₂0 h₂7] at heq
    have hinj : ∀ m₁ < 8, ∀ m₂ < 8, nibAux m₁ = nibAux m₂ → m₁ = m₂ := by
      decide
    have := hinj d₁.toNat (by omega) d₂.toNat (by omega) heq
    omega
  · intro d h0 h7
    exact encodeNibble_mem d
  · intro v hv
    fin_cases hv
    · exact ⟨0, by norm_num, by norm_num, by decide⟩
    · exact ⟨1, by norm_num, by norm_num, by decide⟩
    · exact ⟨2, by norm_num, by norm_num, by decide⟩
    · exact ⟨3, by norm_num, by norm_num, by decide⟩
    · exact ⟨4, by norm_num, by norm_num, by decide⟩
    · exact ⟨5, by norm_num, by norm_num, by decide⟩
    · exact ⟨6, by norm_num, by norm_num, by decide⟩
    · exact ⟨7, by norm_num, by norm_num, by decide⟩
  · intro d h0 h7
    obtain ⟨_, hz, hf⟩ := encodeNibble_facts d
    exact ⟨hz, hf⟩

theorem c1_witness :
    encodeNibble 3 ∈ ([1, 2, 3, 4, 6, 7, 8, 9] : List Nat) :=
  c1_encodeNibble_bijective.2.1 3 (by norm_num) (by norm_num)

/-- C2: for every byte `base` and every integer `data`, `encodeChannel`
preserves the high nibble of `base` and its result lies in `[0,255]`. -/
theorem c2_encodeChannel_high_nibble :
    ∀ base : Nat, base ≤ 255 → ∀ data : Int,
      encodeChannel base data &&& 240 = base &&& 240 ∧
      encodeChannel base data ≤ 255 := by
  intro base hb data
  obtain ⟨h1, h2, _, _⟩ := encodeChannel_facts base (by omega) data
  exact ⟨h1, h2⟩

theorem c2_witness :
    encodeChannel 255 0 &&& 240 = 255 &&& 240 ∧ encodeChannel 255 0 ≤ 255 :=
  c2_encodeChannel_high_nibble 255 (by norm_num) 0

/-- C3: `avoidAnimationSentinels` maps 254 to 238, 62 to 78, 63 to 79,
64 to 80, and returns every other byte unchanged. -/
theorem c3_avoidAnimationSentinels_table :
    avoidAnimationSentinels 254 = 238 ∧
    avoidAnimationSentinels 62 = 78 ∧
    avoidAnimationSentinels 63 = 79 ∧
    avoidAnimationSentinels 64 = 80 ∧
    (∀ x : Nat, x < 256 → x ≠ 254 → x ≠ 62 → x ≠ 63 → x ≠ 64 →
        avoidAnimationSentinels x = x) := by
  refine ⟨by decide, by decide, by decide, by decide, by decide⟩

theorem c3_witness : avoidAnimationSentinels 100 = 100 :=
  c3_avoidAnimationSentinels_table.2.2.2.2 100 (by norm_num) (by norm_num)
    (by norm_num) (by norm_num) (by norm_num)

/-- C4: for every base color with byte channels and all integer
parameters, the emitted red component is never 254 and never lies in
the reserved shadow range `[62,64]`. -/
theorem c4_red_never_sentinel :
    ∀ c : Color, c.r < 256 → c.g < 256 → c.b < 256 → ∀ e s p : Int,
      (encodeTextEffect c e s p).r ≠ 254 ∧
      ¬(62 ≤ (encodeTextEffect c e s p).r ∧
          (encodeTextEffect c e s p).r ≤ 64) := by
  intro c hr hg hb e s p
  rw [red_component_eq, avoid_encodeChannel c.r hr]
  obtain ⟨_, _, h254, hsh⟩ := encodeChannel_facts c.r hr _
  exact ⟨h254, hsh⟩

theorem c4_witness :
    (encodeTextEffect ⟨255, 255, 255⟩ 0 3 3).r ≠ 254 ∧
    ¬(62 ≤ (encodeTextEffect ⟨255, 255, 255⟩ 0 3 3).r ∧
        (encodeTextEffect ⟨255, 255, 255⟩ 0 3 3).r ≤ 64) :=
  c4_red_never_sentinel ⟨255, 255, 255⟩ (by norm_num) (by norm_num)
    (by norm_num) 0 3 3

/-- C5: encoding effect 0 at speed 3 and param 3 over white yields the
byte triplet `(241, 244, 244)` with hex string `"#F1F4F4"`. -/
theorem c5_white_rainbow_example :
    encodeTextEffect ⟨255, 255, 255⟩ 0 3 3 = ⟨241, 244, 244, "#F1F4F4"⟩ := by
  decide

/-- C6: out-of-range `speed` and `param` saturate: speed 99 behaves as
speed 7 and param -5 behaves as param 0, for every base color and every
effect id. -/
theorem c6_clamp_saturates :
    ∀ c : Color, ∀ e : Int,
      encodeTextEffect c e 99 (-5) = encodeTextEffect c e 7 0 := by
  intro c e
  rfl

theorem hexDigit_ne_hash (c : Char) (h : isHexDigit c = true) : c ≠ '#' := by
  intro heq
  subst heq
  exact absurd h (by decide)

theorem hexToRgb_mk (l : List Char) :
    hexToRgb (String.mk l) = hexToRgbList (dropHash l) := rfl

theorem hexToRgbList_sixDigits (c1 c2 c3 c4 c5 c6 : Char)
    (h1 : isHexDigit c1 = true) (h2 : isHexDigit c2 = true)
    (h3 : isHexDigit c3 = true) (h4 : isHexDigit c4 = true)
    (h5 : isHexDigit c5 = true) (h6 : isHexDigit c6 = true) :
    hexToRgbList [c1, c2, c3, c4, c5, c6] =
      ⟨16 * hexVal c1 + hexVal c2, 16 * hexVal c3 + hexVal c4,
        16 * hexVal c5 + hexVal c6⟩ := by
  have hcond : (isHexDigit c1 && isHexDigit c2 && isHexDigit c3 &&
      isHexDigit c4 && isHexDigit c5 && isHexDigit c6) = true := by
    simp [h1, h2, h3, h4, h5, h6]
  simp only [hexToRgbList]
  rw [if_pos hcond]

theorem hexToRgbList_default (cs : List Char)
    (h : ¬(cs.length = 6 ∧ cs.all isHexDigit = true)) :
    hexToRgbList cs = ⟨255, 255, 255⟩ := by
  rcases cs with _ | ⟨c1, _ | ⟨c2, _ | ⟨c3, _ | ⟨c4, _ | ⟨c5, _ | ⟨c6, _ | ⟨c7, rest⟩⟩⟩⟩⟩⟩⟩
  all_goals try rfl
  have hcond : ¬((isHexDigit c1 && isHexDigit c2 && isHexDigit c3 &&
      isHexDigit c4 && isHexDigit c5 && isHexDigit c6) = true) := by
    intro hc
    apply h
    refine ⟨rfl, ?_⟩
    simp only [List.all_cons, List.all_nil, Bool.and_true]
    simp only [Bool.and_assoc] at hc
    exact hc
  simp only [hexToRgbList]
  rw [if_neg hcond]

/-- C7: `hexToRgb` parses a six-hex-digit string, case-insensitively and
with an optional leading hash, into its three channel bytes; every
string the pattern rejects yields the default color `(255,255,255)`. -/
theorem c7_hexToRgb_parse :
    hexToRgb "#ffffff" = ⟨255, 255, 255⟩ ∧
    hexToRgb "not-a-color" = ⟨255, 255, 255⟩ ∧
    (∀ c1 c2 c3 c4 c5 c6 : Char,
        isHexDigit c1 = true → isHexDigit c2 = true → isHexDigit c3 = true →
        isHexDigit c4 = true → isHexDigit c5 = true → isHexDigit c6 = true →
        hexToRgb (String.mk ['#', c1, c2, c3, c4, c5, c6]) =
          ⟨16 * hexVal c1 + hexVal c2, 16 * hexVal c3 + hexVal c4,
            16 * hexVal c5 + hexVal c6⟩ ∧
        hexToRgb (String.mk [c1, c2, c3, c4, c5, c6]) =
          ⟨16 * hexVal c1 + hexVal c2, 16 * hexVal c3 + hexVal c4,
            16 * hexVal c5 + hexVal c6⟩) ∧
    (∀ s : String,
        ¬((dropHash s.data).length = 6 ∧
            (dropHash s.data).all isHexDigit = true) →
        hexToRgb s = ⟨255, 255, 255⟩) := by
  refine ⟨by decide, by decide, ?_, ?_⟩
  · intro c1 c2 c3 c4 c5 c6 h1 h2 h3 h4 h5 h6
    constructor
    · rw [hexToRgb_mk]
      have hdrop : dropHash ('#' :: [c1, c2, c3, c4, c5, c6]) =
          [c1, c2, c3, c4, c5, c6] := by
        simp [dropHash]
      rw [hdrop]
      exact hexToRgbList_sixDigits c1 c2 c3 c4 c5 c6 h1 h2 h3 h4 h5 h6
    · rw [hexToRgb_mk]
      have hdrop : dropHash [c1, c2, c3, c4, c5, c6] =
          [c1, c2, c3, c4, c5, c6] := by
        simp only [dropHash]
        rw [if_neg (hexDigit_ne_hash c1 h1)]
      rw [hdrop]
      exact hexToRgbList_sixDigits c1 c2 c3 c4 c5 c6 h1 h2 h3 h4 h5 h6
  · intro s hbad
    exact hexToRgbList_default _ hbad

theorem c7_witness :
    hexToRgb (String.mk ['#', 'f', 'f', 'f', 'f', 'f', 'f']) =
      ⟨16 * hexVal 'f' + hexVal 'f', 16 * hexVal 'f' + hexVal 'f',
        16 * hexVal 'f' + hexVal 'f'⟩ :=
  (c7_hexToRgb_parse.2.2.1 'f' 'f' 'f' 'f' 'f' 'f' (by decide) (by decide)
    (by decide) (by decide) (by decide) (by decide)).1

/-- C9: `encodeTextEffect` is deterministic: identical inputs give
identical outputs, bytes and hex string alike. -/
theorem c9_deterministic :
    ∀ c₁ c₂ : Color, ∀ e₁ e₂ s₁ s₂ p₁ p₂ : Int,
      c₁ = c₂ → e₁ = e₂ → s₁ = s₂ → p₁ = p₂ →
      encodeTextEffect c₁ e₁ s₁ p₁ = encodeTextEffect c₂ e₂ s₂ p₂ := by
  intro c₁ c₂ e₁ e₂ s₁ s₂ p₁ p₂ hc he hs hp
  rw [hc, he, hs, hp]

theorem c9_witness :
    encodeTextEffect ⟨255, 255, 255⟩ 0 3 3 =
      encodeTextEffect ⟨255, 255, 255⟩ 0 3 3 :=
  c9_deterministic ⟨255, 255, 255⟩ ⟨255, 255, 255⟩ 0 0 3 3 3 3 rfl rfl rfl rfl

/-- C10: the sentinel low nibbles 14, 15 and 0 are never produced by
`encodeNibble`, so `avoidAnimationSentinels` is the identity on every
nibble-encoded channel, and inside `encodeTextEffect` the red channel's
high nibble always equals the base red channel's high nibble. -/
theorem c10_sentinel_branch_unreachable :
    (∀ d : Int, encodeNibble d ≠ 254 &&& 15 ∧ encodeNibble d ≠ 62 &&& 15 ∧
        encodeNibble d ≠ 63 &&& 15 ∧ encodeNibble d ≠ 64 &&& 15) ∧
    (∀ base : Nat, base < 256 → ∀ data : Int,
        avoidAnimationSentinels (encodeChannel base data) =
          encodeChannel base data) ∧
    (∀ c : Color, c.r < 256 → ∀ e s p : Int,
        (encodeTextEffect c e s p).r &&& 240 = c.r &&& 240) := by
  refine ⟨?_, ?_, ?_⟩
  · intro d
    have hball : ∀ n ∈ ([1, 2, 3, 4, 6, 7, 8, 9] : List Nat),
        n ≠ 14 ∧ n ≠ 15 ∧ n ≠ 0 := by decide
    obtain ⟨ha, hb, hc⟩ := hball _ (encodeNibble_mem d)
    exact ⟨ha, ha, hb, hc⟩
  · intro base hb data
    exact avoid_encodeChannel base hb data
  · intro c hr e s p
    rw [red_component_eq, avoid_encodeChannel c.r hr]
    exact (encodeChannel_facts c.r hr _).1

theorem c10_witness :
    avoidAnimationSentinels (encodeChannel 255 0) = encodeChannel 255 0 :=
  c10_sentinel_branch_unreachable.2.1 255 (by norm_num) 0

/-- The uppercase hexadecimal digit of a value below 16. -/
def hexDigitUpper (n : Nat) : Char :=
  if n < 10 then Char.ofNat ('0'.toNat + n) else Char.ofNat ('A'.toNat + n - 10)

/-- Canonical two-digit, zero-padded, uppercase hex form of a byte. -/
def byteHexUpper (n : Nat) : List Char :=
  [hexDigitUpper (n / 16), hexDigitUpper (n % 16)]

def isUpperHexDigit (c : Char) : Bool :=
  (('0' ≤ c) && (c ≤ '9')) || (('A' ≤ c) && (c ≤ 'F'))

theorem padHexTable : ∀ n < 256,
    (padStart (Nat.toDigits 16 n) 2 '0').map Char.toUpper = byteHexUpper n ∧
    (byteHexUpper n).all isUpperHexDigit = true := by
  decide

theorem hex_component_eq (c : Color) (e s p : Int) :
    (encodeTextEffect c e s p).hex =
      String.mk (('#' ::
        (padStart (Nat.toDigits 16 (encodeTextEffect c e s p).r) 2 '0' ++
         padStart (Nat.toDigits 16 (encodeTextEffect c e s p).g) 2 '0' ++
         padStart (Nat.toDigits 16 (encodeTextEffect c e s p).b) 2 '0')).map
        Char.toUpper) := rfl

theorem green_component_eq (c : Color) (e s p : Int) :
    (encodeTextEffect c e s p).g =
      encodeChannel c.g (clamp s 1 (DATA_MASK : Int)) := rfl

theorem blue_component_eq (c : Color) (e s p : Int) :
    (encodeTextEffect c e s p).b =
      encodeChannel c.b (clamp p 0 (DATA_MASK : Int)) := rfl

theorem encoded_bytes_lt (c : Color) (hr : c.r < 256) (hg : c.g < 256)
    (hb : c.b < 256) (e s p : Int) :
    (encodeTextEffect c e s p).r < 256 ∧
    (encodeTextEffect c e s p).g < 256 ∧
    (encodeTextEffect c e s p).b < 256 := by
  refine ⟨?_, ?_, ?_⟩
  · rw [red_component_eq, avoid_encodeChannel c.r hr]
    have := (encodeChannel_facts c.r hr (e % ((DATA_MASK : Int) + 1))).2.1
    omega
  · rw [green_component_eq]
    have := (encodeChannel_facts c.g hg (clamp s 1 (DATA_MASK : Int))).2.1
    omega
  · rw [blue_component_eq]
    have := (encodeChannel_facts c.b hb (clamp p 0 (DATA_MASK : Int))).2.1
    omega

/-- C8: the hex field is a hash sign followed by exactly six uppercase
hexadecimal digits: two zero-padded digits for each of the r, g and b
bytes, in that order. -/
theorem c8_hex_format :
    ∀ c : Color, c.r < 256 → c.g < 256 → c.b < 256 → ∀ e s p : Int,
      (encodeTextEffect c e s p).hex =
        String.mk ('#' :: (byteHexUpper (encodeTextEffect c e s p).r ++
          byteHexUpper (encodeTextEffect c e s p).g ++
          byteHexUpper (encodeTextEffect c e s p).b)) ∧
      (encodeTextEffect c e s p).hex.length = 7 ∧
      (byteHexUpper (encodeTextEffect c e s p).r).all isUpperHexDigit = true ∧
      (byteHexUpper (encodeTextEffect c e s p).g).all isUpperHexDigit = true ∧
      (byteHexUpper (encodeTextEffect c e s p).b).all isUpperHexDigit = true := by
  intro c hr hg hb e s p
  obtain ⟨hrb, hgb, hbb⟩ := encoded_bytes_lt c hr hg hb e s p
  obtain ⟨hru, hra⟩ := padHexTable _ hrb
  obtain ⟨hgu, hga⟩ := padHexTable _ hgb
  obtain ⟨hbu, hba⟩ := padHexTable _ hbb
  have hhex : (encodeTextEffect c e s p).hex =
      String.mk ('#' :: (byteHexUpper (encodeTextEffect c e s p).r ++
        byteHexUpper (encodeTextEffect c e s p).g ++
        byteHexUpper (encodeTextEffect c e s p).b)) := by
    rw [hex_component_eq]
    rw [List.map_cons, List.map_append, List.map_append]
    rw [hru, hgu, hbu]
    rw [show Char.toUpper '#' = '#' from by decide]
  refine ⟨hhex, ?_, hra, hga, hba⟩
  rw [hhex]
  simp [String.length, byteHexUpper]

theorem c8_witness :
    (encodeTextEffect ⟨255, 255, 255⟩ 0 3 3).hex =
      String.mk ('#' :: (byteHexUpper (encodeTextEffect ⟨255, 255, 255⟩ 0 3 3).r ++
        byteHexUpper (encodeTextEffect ⟨255, 255, 255⟩ 0 3 3).g ++
        byteHexUpper (encodeTextEffect ⟨255, 255, 255⟩ 0 3 3).b)) :=
  (c8_hex_format ⟨255, 255, 255⟩ (by norm_num) (by norm_num) (by norm_num)
    0 3 3).1
